import Mathlib

/-!
# Verification of the pricing and capacity-planning core

Shallow embedding, in Lean 4, of the pricing / risk-classification /
capacity-planning core of the `rick-s-pretty-handy-project-management-tools`
repository, together with theorems settling the specification claims.

Conventions of the embedding:
* Python floats are modelled as exact rationals (`ℚ`);
* calendar dates are modelled as integers counting days from a fixed epoch
  that falls on a Monday, so that the weekday of day `d` is `(d % 7).toNat`
  with Monday = 0 exactly as in Python's `date.weekday()`;
* Python dictionaries read from JSON configuration are modelled as structures
  whose optional fields are `Option` values, mirroring `dict.get` defaults;
* functions that the source implements with `while` loops are modelled by
  structural recursion on the (always finite) iteration count of the loop.
-/

/-! ## Python string primitives

Core `String` operations such as `toLower` are implemented in Lean by
well-founded recursion over byte positions and do not reduce inside the
kernel, so the Python string operations the source uses are modelled
structurally over the character list of the string, with the same
semantics on the ASCII data the source compares. -/

/-- Python `str.lower()`. -/
def pyLower (s : String) : String := ⟨s.data.map Char.toLower⟩

/-- Whether the first character list is a prefix of the second. -/
def charPrefix : List Char → List Char → Bool
  | [], _ => true
  | _ :: _, [] => false
  | a :: as, b :: bs => a == b && charPrefix as bs

/-- Whether `sub` occurs as a contiguous sublist. -/
def charSub (sub : List Char) : List Char → Bool
  | [] => sub.isEmpty
  | c :: cs => charPrefix sub (c :: cs) || charSub sub cs

/-- Python `str.strip()`: drop leading and trailing whitespace. -/
def pyStrip (s : String) : String :=
  ⟨((s.data.dropWhile Char.isWhitespace).reverse.dropWhile Char.isWhitespace).reverse⟩

/-- Splitting a character list on a separator character, accumulating the
current chunk in reverse. -/
def charSplit (sep : Char) : List Char → List Char → List (List Char)
  | [], acc => [acc.reverse]
  | c :: cs, acc =>
    if c == sep then acc.reverse :: charSplit sep cs []
    else charSplit sep cs (c :: acc)

/-- Python `str.split(sep)` for a one-character separator. -/
def pySplit (s : String) (sep : Char) : List String :=
  (charSplit sep s.data []).map (fun l => ⟨l⟩)

/-- Replace every occurrence of a character by a replacement string. -/
def charReplace (old : Char) (new : List Char) : List Char → List Char
  | [] => []
  | c :: cs =>
    if c == old then new ++ charReplace old new cs
    else c :: charReplace old new cs

/-- Python `str.replace(old, new)` for a one-character pattern. -/
def pyReplace (s : String) (old : Char) (new : String) : String :=
  ⟨charReplace old new.data s.data⟩

/-! ## Configuration (`spec_sheet/settings/config_manager.py`) -/

/-- The fields of `settings_config` consumed by the pricing engine:
`pricing.base_story_point_price`, `pricing.experimental_variance`,
`pricing.base_hourly_rate`, `pricing.hourly_rate_discount` and
`sprint_planning.hours_per_story_point`. -/
structure SettingsConfig where
  base_story_point_price : ℚ
  experimental_variance : ℚ
  base_hourly_rate : ℚ
  hourly_rate_discount : ℚ
  hours_per_story_point : ℚ

/-- The default settings of `ConfigManager._get_default_settings_config`:
base price 130, variance 0.3, base hourly rate 127.16, discount 0.25,
8 hours per story point. -/
def defaultSettingsConfig : SettingsConfig :=
  { base_story_point_price := 130
    experimental_variance := 3/10
    base_hourly_rate := 12716/100
    hourly_rate_discount := 1/4
    hours_per_story_point := 8 }

/-- `ConfigManager.get_hourly_rate`: the hourly rate is always derived as
`base_hourly_rate * (1 - hourly_rate_discount)`. -/
def get_hourly_rate (cfg : SettingsConfig) : ℚ :=
  cfg.base_hourly_rate * (1 - cfg.hourly_rate_discount)

/-! ## Definition-of-Done (quality requirement) configuration -/

/-- One DoD item of `dod_config` (`description`, `impact_percentage`); fields
are optional because the source reads them with `item.get(..., default)`. -/
structure DodItem where
  description : Option String
  impact_percentage : Option ℚ

/-- One DoD category: a named list of items. -/
structure DodCategory where
  name : Option String
  items : List DodItem

/-- The DoD configuration: a list of categories. -/
structure DodConfig where
  categories : List DodCategory

/-- The key-cleaning in `ConfigManager.get_dod_impacts`:
`description.lower().replace(' ', '_').replace('(', '').replace(')', '')
.replace(',', '').replace('-', '_').replace('&', 'and')`. -/
def cleanKey (description : String) : String :=
  pyReplace (pyReplace (pyReplace (pyReplace (pyReplace (pyReplace
    (pyLower description) ' ' "_") '(' "") ')' "") ',' "") '-' "_") '&' "and"

/-- Assignment `d[k] = v` on a Python dict modelled as an association list:
overwrite the value when the key is present, otherwise append. -/
def dodInsert (d : List (String × ℚ)) (k : String) (v : ℚ) : List (String × ℚ) :=
  if d.any (fun p => p.1 == k) then
    d.map (fun p => if p.1 == k then (p.1, v) else p)
  else
    d ++ [(k, v)]

/-- `ConfigManager.get_dod_impacts`: walk every category and item, keying the
impact percentage by the cleaned description (later items with the same
cleaned key overwrite earlier ones, as in the Python dict). -/
def get_dod_impacts (cfg : DodConfig) : List (String × ℚ) :=
  cfg.categories.foldl
    (fun d category =>
      category.items.foldl
        (fun d item =>
          dodInsert d (cleanKey (item.description.getD ""))
            (item.impact_percentage.getD 0))
        d)
    []

/-- `ConfigManager.calculate_dod_impact_total`: 0.0 when no impacts were
loaded, otherwise the sum of the values of the impacts dict. -/
def calculate_dod_impact_total (cfg : DodConfig) : ℚ :=
  let dod_impacts := get_dod_impacts cfg
  if dod_impacts.isEmpty then 0 else (dod_impacts.map Prod.snd).sum

/-- All DoD items of a configuration in document order (helper for stating
claims about "every requirement in the list"). -/
def dodAllItems (cfg : DodConfig) : List DodItem :=
  (cfg.categories.map DodCategory.items).flatten

/-! ## Pricing engine (`spec_sheet/pricing/pricing_engine.py`) -/

/-- The state `PricingEngine.__init__` captures from the configuration. -/
structure PricingEngine where
  base_story_point_price : ℚ
  experimental_variance : ℚ
  hourly_rate : ℚ
  dod_impact_total : ℚ
  hours_per_story_point : ℚ

/-- `PricingEngine.__init__`: reads prices and variance from the settings,
derives the hourly rate via `get_hourly_rate`, and the DoD impact total via
`calculate_dod_impact_total`. -/
def mkPricingEngine (cfg : SettingsConfig) (dod : DodConfig) : PricingEngine :=
  { base_story_point_price := cfg.base_story_point_price
    experimental_variance := cfg.experimental_variance
    hourly_rate := get_hourly_rate cfg
    dod_impact_total := calculate_dod_impact_total dod
    hours_per_story_point := cfg.hours_per_story_point }

/-- The result dict of `PricingEngine.calculate_prices`: `base` and
`base_with_dod` are always present, the other keys depend on the profile. -/
structure Prices where
  base : ℚ
  base_with_dod : ℚ
  fixed : Option ℚ := none
  minimum : Option ℚ := none
  maximum : Option ℚ := none
  hourly_estimate : Option ℚ := none

/-- `PricingEngine.calculate_prices`, branching on the risk profile string
exactly as the source does (an unrecognized profile yields only the base
fields). -/
def calculate_prices (e : PricingEngine) (story_points : ℚ) (risk_profile : String) : Prices :=
  let base_price := story_points * e.base_story_point_price
  let base_price_with_dod := base_price * (1 + e.dod_impact_total)
  if risk_profile == "proven" then
    { base := base_price, base_with_dod := base_price_with_dod
      fixed := some base_price_with_dod }
  else if risk_profile == "experimental" then
    { base := base_price, base_with_dod := base_price_with_dod
      minimum := some (base_price_with_dod * (1 - e.experimental_variance))
      maximum := some (base_price_with_dod * (1 + e.experimental_variance)) }
  else if risk_profile == "dependant" then
    { base := base_price, base_with_dod := base_price_with_dod
      hourly_estimate := some (story_points * e.hours_per_story_point * e.hourly_rate) }
  else
    { base := base_price, base_with_dod := base_price_with_dod }

/-- An epic record; only its `key` is consumed by `calculate_epic_totals`. -/
structure Epic where
  key : String

/-- The totals dict returned by `PricingEngine.calculate_epic_totals`. -/
structure Totals where
  proven : ℚ
  experimental_min : ℚ
  experimental_max : ℚ
  dependant : ℚ
  grand_total : ℚ

/-- The body of the story loop of `calculate_epic_totals`, accumulating
(proven, experimental min, experimental max, dependant) totals. -/
def epicTotalsStep {σ : Type} (e : PricingEngine) (get_story_points_func : σ → Option ℚ)
    (determine_risk_profile_func : σ → String) (acc : ℚ × ℚ × ℚ × ℚ) (story : σ) :
    ℚ × ℚ × ℚ × ℚ :=
  let story_points := (get_story_points_func story).getD 0
  let risk_profile := determine_risk_profile_func story
  let prices := calculate_prices e story_points risk_profile
  if risk_profile == "proven" then
    (acc.1 + prices.fixed.getD 0, acc.2.1, acc.2.2.1, acc.2.2.2)
  else if risk_profile == "experimental" then
    (acc.1, acc.2.1 + prices.minimum.getD 0, acc.2.2.1 + prices.maximum.getD 0, acc.2.2.2)
  else if risk_profile == "dependant" then
    (acc.1, acc.2.1, acc.2.2.1, acc.2.2.2 + prices.hourly_estimate.getD 0)
  else acc

/-- `PricingEngine.calculate_epic_totals`: iterate over every story of every
epic, accumulate per-profile totals, and return them together with
`grand_total = proven + experimental_max + dependant`. -/
def calculate_epic_totals {σ : Type} (e : PricingEngine) (epics : List Epic)
    (get_stories_func : String → List σ) (get_story_points_func : σ → Option ℚ)
    (determine_risk_profile_func : σ → String) : Totals :=
  let fin := epics.foldl
    (fun acc epic =>
      (get_stories_func epic.key).foldl
        (epicTotalsStep e get_story_points_func determine_risk_profile_func) acc)
    (0, 0, 0, 0)
  { proven := fin.1, experimental_min := fin.2.1, experimental_max := fin.2.2.1
    dependant := fin.2.2.2, grand_total := fin.1 + fin.2.2.1 + fin.2.2.2 }

/-! ## Risk assessment (`spec_sheet/settings/risk_assessor.py`) -/

/-- Python substring membership `sub in s` on strings. -/
def pyIn (sub s : String) : Bool :=
  charSub sub.data s.data

/-- The shapes the Jira type-of-work custom field can take in
`RiskAssessor.determine_risk_profile`: a list of option objects (each
contributing its `value` string), a single option object, or a raw string
(possibly comma-separated). -/
inductive TypeOfWork where
  | ofList : List String → TypeOfWork
  | ofDict : String → TypeOfWork
  | ofStr : String → TypeOfWork

/-- Python truthiness of the raw field value (`if type_of_work_value:`):
an empty list or empty string is falsy; an option object (a nonempty dict)
is truthy. -/
def TypeOfWork.isTruthy : TypeOfWork → Bool
  | .ofList l => !l.isEmpty
  | .ofDict _ => true
  | .ofStr s => !(s == "")

/-- The `work_types` extraction in `determine_risk_profile`: lowercase each
list value, wrap a single value, or split a raw string on commas and
strip/lowercase each part. -/
def TypeOfWork.workTypes : TypeOfWork → List String
  | .ofList l => l.map pyLower
  | .ofDict v => [pyLower v]
  | .ofStr s => (pySplit s ',').map (fun wt => pyLower (pyStrip wt))

/-- The story fields read by `RiskAssessor`: the type-of-work custom field,
the labels, and the `customfield_10016` story points field. -/
structure RiskStory where
  type_of_work : Option TypeOfWork
  labels : List String
  story_points_field : Option ℚ

/-- The `risk_assessment` section of the settings configuration:
`risk_priority` is an insertion-ordered dict of tag → priority. -/
structure RiskConfig where
  risk_priority : List (String × ℤ)
  proven_threshold_story_points : ℚ
  experimental_threshold_story_points : ℚ

/-- The defaults from `ConfigManager._get_default_settings_config`:
priorities proven 1, experimental 2, dependant 3, dependent 3;
thresholds 3 and 8. -/
def defaultRiskConfig : RiskConfig :=
  { risk_priority := [("proven", 1), ("experimental", 2), ("dependant", 3), ("dependent", 3)]
    proven_threshold_story_points := 3
    experimental_threshold_story_points := 8 }

/-- One step of the inner loop over `risk_priority.items()`: on a substring
match in either direction with a strictly higher priority, record the
priority and the selected risk (normalizing `dependent` to `dependant`). -/
def riskMatchStep (work_type : String) (acc : ℤ × String) (entry : String × ℤ) : ℤ × String :=
  if (pyIn entry.1 work_type || pyIn work_type entry.1) && decide (acc.1 < entry.2) then
    (entry.2, if entry.1 == "dependent" then "dependant" else entry.1)
  else acc

/-- The double loop of `determine_risk_profile` over work types and the
priority map, starting from `highest_priority = 0`,
`selected_risk = "experimental"`. -/
def selectRisk (risk_priority : List (String × ℤ)) (work_types : List String) : ℤ × String :=
  work_types.foldl (fun acc work_type => risk_priority.foldl (riskMatchStep work_type) acc)
    (0, "experimental")

/-- `RiskAssessor._get_story_points_from_story`: returns the field value when
it is truthy (a nonzero float), else 0.0. -/
def getStoryPointsFromStory (story : RiskStory) : ℚ :=
  match story.story_points_field with
  | some v => if v == 0 then 0 else v
  | none => 0

/-- `RiskAssessor.determine_risk_profile`: the four-step cascade —
type-of-work priority matching, legacy label sets, story-point thresholds
(guarded by Python float truthiness), and the `"experimental"` default. -/
def determine_risk_profile (cfg : RiskConfig) (story : RiskStory) : String :=
  let towResult : Option String :=
    match story.type_of_work with
    | some tow =>
      if tow.isTruthy then
        let sel := selectRisk cfg.risk_priority tow.workTypes
        if decide (0 < sel.1) then some sel.2 else none
      else none
    | none => none
  match towResult with
  | some r => r
  | none =>
    let risk_labels := story.labels.map pyLower
    if ["proven", "low-risk", "fixed"].any (fun l => risk_labels.contains l) then "proven"
    else if ["experimental", "moderate-risk", "research"].any (fun l => risk_labels.contains l) then
      "experimental"
    else if ["dependant", "dependent", "high-risk", "external"].any (fun l => risk_labels.contains l) then
      "dependant"
    else
      let story_points := getStoryPointsFromStory story
      if story_points != 0 then
        if story_points ≤ cfg.proven_threshold_story_points then "proven"
        else if story_points ≤ cfg.experimental_threshold_story_points then "experimental"
        else "dependant"
      else "experimental"

/-! Spec-side helpers for the risk-cascade claim. -/

/-- Substring match in either direction between a work type and a risk key,
as the source's `risk_type in work_type or work_type in risk_type`. -/
def tagMatches (work_type risk_type : String) : Bool :=
  pyIn risk_type work_type || pyIn work_type risk_type

/-- A work type signals Dependant: it matches the `dependant` or the
`dependent` key. -/
def depMatch (wt : String) : Bool := tagMatches wt "dependant" || tagMatches wt "dependent"

/-- A work type signals Experimental. -/
def expMatch (wt : String) : Bool := tagMatches wt "experimental"

/-- A work type signals Proven. -/
def provMatch (wt : String) : Bool := tagMatches wt "proven"

/-- The highest default-configuration priority a single work type can reach:
3 for a dependant/dependent match, else 2 for experimental, else 1 for
proven, else 0. -/
def score (wt : String) : ℤ :=
  if depMatch wt then 3 else if expMatch wt then 2 else if provMatch wt then 1 else 0

/-- The (priority, selected risk) state of the matching loop associated with
a best priority value `k` under the default configuration. -/
def encodeRisk (k : ℤ) : ℤ × String :=
  (k, if k == 3 then "dependant" else if k == 1 then "proven" else "experimental")

/-- The highest score over a list of work types (0 when none match). -/
def maxScore : List String → ℤ
  | [] => 0
  | wt :: rest => max (score wt) (maxScore rest)

/-- The risk cascade as the amended claim words it, for the default
configuration: a truthy type-of-work field whose tags contain a
dependant/dependent, experimental, or proven match (highest priority first)
decides immediately; otherwise the legacy label sets; otherwise the
story-point thresholds for a present and nonzero value; otherwise
Experimental. -/
def riskClaimSpec (story : RiskStory) : String :=
  let towResult : Option String :=
    match story.type_of_work with
    | some tow =>
      if tow.isTruthy then
        let wts := tow.workTypes
        if wts.any depMatch then some "dependant"
        else if wts.any expMatch then some "experimental"
        else if wts.any provMatch then some "proven"
        else none
      else none
    | none => none
  match towResult with
  | some r => r
  | none =>
    let risk_labels := story.labels.map pyLower
    if ["proven", "low-risk", "fixed"].any (fun l => risk_labels.contains l) then "proven"
    else if ["experimental", "moderate-risk", "research"].any (fun l => risk_labels.contains l) then
      "experimental"
    else if ["dependant", "dependent", "high-risk", "external"].any (fun l => risk_labels.contains l) then
      "dependant"
    else
      match story.story_points_field with
      | some v =>
        if v ≠ 0 then
          if v ≤ 3 then "proven" else if v ≤ 8 then "experimental" else "dependant"
        else "experimental"
      | none => "experimental"

/-! ## MoSCoW classification (`spec_sheet/settings/moscow_manager.py` and the
identical `JiraSync.get_moscow_priority` in `jira_sync.py`) -/

/-- The four MoSCoW priorities; `wontHave` models the source string
`Wont Have` (spelled with an apostrophe in the source). -/
inductive Moscow where
  | mustHave
  | shouldHave
  | couldHave
  | wontHave
deriving DecidableEq, Repr

/-- The story fields read by the MoSCoW classifiers: labels, and the `name`
of the priority field (`none` models an absent or empty — hence falsy —
priority dict). -/
structure MoscowStory where
  labels : List String
  priority_name : Option String

/-- `MoscowManager.get_moscow_priority` (and the line-for-line identical
`JiraSync.get_moscow_priority`): explicit MoSCoW labels first, then the
tracker-native priority name, then the Should Have default. -/
def get_moscow_priority (story : MoscowStory) : Moscow :=
  let moscow_labels := story.labels.map pyLower
  if ["must", "must-have"].any (fun l => moscow_labels.contains l) then .mustHave
  else if ["should", "should-have"].any (fun l => moscow_labels.contains l) then .shouldHave
  else if ["could", "could-have"].any (fun l => moscow_labels.contains l) then .couldHave
  else if ["wont", "wont-have", "out-of-scope"].any (fun l => moscow_labels.contains l) then
    .wontHave
  else
    match story.priority_name with
    | some nm =>
      let priority_name := pyLower nm
      if ["highest", "blocker"].contains priority_name then .mustHave
      else if ["high", "major"].contains priority_name then .shouldHave
      else if ["medium", "normal"].contains priority_name then .couldHave
      else if ["low", "minor", "trivial"].contains priority_name then .wontHave
      else .shouldHave
    | none => .shouldHave

/-- The MoSCoW cascade as the claim words it: lowercased labels checked
against the four keyword sets first, then the native priority name mapping,
then Should Have. -/
def moscowClaimSpec (story : MoscowStory) : Moscow :=
  let lbls := story.labels.map pyLower
  if lbls.any (fun l => l == "must" || l == "must-have") then .mustHave
  else if lbls.any (fun l => l == "should" || l == "should-have") then .shouldHave
  else if lbls.any (fun l => l == "could" || l == "could-have") then .couldHave
  else if lbls.any (fun l => l == "wont" || l == "wont-have" || l == "out-of-scope") then
    .wontHave
  else
    match story.priority_name with
    | some nm =>
      if pyLower nm == "highest" || pyLower nm == "blocker" then .mustHave
      else if pyLower nm == "high" || pyLower nm == "major" then .shouldHave
      else if pyLower nm == "medium" || pyLower nm == "normal" then .couldHave
      else if pyLower nm == "low" || pyLower nm == "minor" || pyLower nm == "trivial" then
        .wontHave
      else .shouldHave
    | none => .shouldHave

/-! ## Timeline generation (`timeline/timeline_generator.py`,
`timeline/enhanced_timeline_generator.py`, `timeline/holiday_manager.py`)

Dates are integers counting days from an epoch that is a Monday. -/

/-- Python's `date.weekday()`: Monday = 0 … Sunday = 6. -/
def weekday (d : ℤ) : ℕ := (d % 7).toNat

/-- The fields of `TeamMemberInfo` (timeline_generator) consumed by the
working-day and capacity calculations; `working_days` defaults to Monday
through Friday. -/
structure TeamMemberInfo where
  name : String
  fte : ℚ
  story_points_per_sprint : ℚ
  working_days : List ℕ := [0, 1, 2, 3, 4]
  custom_holidays : List ℤ := []

/-- The `HolidayInfo` dataclass: a dated holiday, `is_national` defaulting to
true, `affected_members` defaulting to empty. -/
structure HolidayInfo where
  date : ℤ
  name : String
  is_national : Bool := true
  affected_members : List String := []

/-- The fields of the persistent `TeamMember` (team/team_manager.py) consumed
by the enhanced timeline generator. -/
structure TeamMember where
  name : String
  availability : ℚ
  story_points_per_sprint : ℚ

/-- The holiday test inside `TimelineGenerator.calculate_working_days`:
a listed holiday on the date whose `affected_members` is empty or contains
the member's name, or a custom holiday of the member. -/
def tgIsHoliday (holidays : List HolidayInfo) (member : TeamMemberInfo) (d : ℤ) : Bool :=
  holidays.any (fun h =>
    h.date == d && (h.affected_members.isEmpty || h.affected_members.contains member.name))
  || member.custom_holidays.contains d

/-- The day loop of `TimelineGenerator.calculate_working_days`, recursing on
the number of remaining days. -/
def tgWorkingDaysLoop (holidays : List HolidayInfo) (member : TeamMemberInfo) :
    ℕ → ℤ → ℕ
  | 0, _ => 0
  | n + 1, current_date =>
    (if member.working_days.contains (weekday current_date)
        && !(tgIsHoliday holidays member current_date) then 1 else 0)
      + tgWorkingDaysLoop holidays member n (current_date + 1)

namespace TimelineGenerator

/-- `TimelineGenerator.calculate_working_days`: count the days of
`[start_date, end_date]` that fall on one of the member's working weekdays
and are not a holiday for the member. -/
def calculate_working_days (holidays : List HolidayInfo) (start_date end_date : ℤ)
    (member : TeamMemberInfo) : ℕ :=
  tgWorkingDaysLoop holidays member (end_date + 1 - start_date).toNat start_date

/-- `TimelineGenerator.calculate_effective_capacity`: scale the member's
sprint velocity by the worked fraction of a 10-working-day baseline sprint
and by the FTE, clamped below at 0; 0 when the range is empty. -/
def calculate_effective_capacity (holidays : List HolidayInfo) (member : TeamMemberInfo)
    (start_date end_date : ℤ) : ℚ :=
  let total_days := end_date - start_date + 1
  let working_days := calculate_working_days holidays start_date end_date member
  if 0 < total_days then
    max 0 (member.story_points_per_sprint * ((working_days : ℚ) / 10) * member.fte)
  else 0

end TimelineGenerator

/-- The `Sprint` dataclass fields set by the sprint loop. -/
structure Sprint where
  number : ℕ
  start_date : ℤ
  end_date : ℤ
  story_points : ℚ
  team_velocity : ℚ

/-- The member loop inside `generate_sprint_timeline` computing
`team_capacity` as the sum of every member's effective capacity for the
sprint's date range. -/
def sprintTeamCapacity (members : List TeamMemberInfo) (holidays : List HolidayInfo)
    (sprint_start sprint_end : ℤ) : ℚ :=
  (members.map (fun m =>
    TimelineGenerator.calculate_effective_capacity holidays m sprint_start sprint_end)).sum

/-- The `while remaining_story_points > 0` loop of
`TimelineGenerator.generate_sprint_timeline`. Each iteration allocates
`min remaining team_capacity`, emits the sprint, advances the cursor by the
sprint length, and hard-stops once sprint number 50 has been emitted. The
fuel argument is the number of sprints the 50-sprint safety bound still
allows; with fuel 50 and sprint number 1 the fuel never runs out, so the
base case is unreachable and the loop always terminates. The final
remaining backlog is returned alongside the sprint list. -/
def sprintLoop (members : List TeamMemberInfo) (holidays : List HolidayInfo)
    (sprint_length_days : ℤ) : ℕ → ℕ → ℤ → ℚ → List Sprint × ℚ
  | 0, _, _, remaining => ([], remaining)
  | fuel + 1, sprint_number, current_date, remaining =>
    if remaining ≤ 0 then ([], remaining)
    else
      let sprint_start := current_date
      let sprint_end := current_date + sprint_length_days - 1
      let team_capacity := sprintTeamCapacity members holidays sprint_start sprint_end
      let sprint_story_points := min remaining team_capacity
      let sprint : Sprint :=
        { number := sprint_number, start_date := sprint_start, end_date := sprint_end
          story_points := sprint_story_points, team_velocity := team_capacity }
      let remaining2 := remaining - sprint_story_points
      if 50 < sprint_number + 1 then ([sprint], remaining2)
      else
        let rest := sprintLoop members holidays sprint_length_days fuel (sprint_number + 1)
          (sprint_end + 1) remaining2
        (sprint :: rest.1, rest.2)

/-- `TimelineGenerator.generate_sprint_timeline`: an empty roster yields no
sprints; otherwise run the sprint loop from the requested start date with
the full backlog. Returns the emitted sprints together with the final
remaining backlog (the loop variable `remaining_story_points`). -/
def generate_sprint_timeline (members : List TeamMemberInfo) (holidays : List HolidayInfo)
    (start_date : ℤ) (total_story_points : ℚ) (sprint_length_weeks : ℕ) : List Sprint × ℚ :=
  if members.isEmpty then ([], total_story_points)
  else
    sprintLoop members holidays ((sprint_length_weeks : ℤ) * 7) 50 1 start_date
      total_story_points

namespace EnhancedTimelineGenerator

/-- `EnhancedTimelineGenerator.calculate_working_days` day test: a Monday
through Friday weekday, and no holiday on the date that `is_national` or
lists the member's name. -/
def enhDayWorks (holidays : List HolidayInfo) (member : TeamMember) (d : ℤ) : Bool :=
  decide (weekday d < 5)
    && !(holidays.any (fun h =>
      h.date == d && (h.is_national || h.affected_members.contains member.name)))

/-- The day loop of `EnhancedTimelineGenerator.calculate_working_days`. -/
def enhWorkingDaysLoop (holidays : List HolidayInfo) (member : TeamMember) :
    ℕ → ℤ → ℕ
  | 0, _ => 0
  | n + 1, current_date =>
    (if enhDayWorks holidays member current_date then 1 else 0)
      + enhWorkingDaysLoop holidays member n (current_date + 1)

/-- `EnhancedTimelineGenerator.calculate_working_days`: count the Monday to
Friday days of `[start_date, end_date]` on which the member is not on
holiday. -/
def calculate_working_days (holidays : List HolidayInfo) (start_date end_date : ℤ)
    (member : TeamMember) : ℕ :=
  enhWorkingDaysLoop holidays member (end_date + 1 - start_date).toNat start_date

/-- `EnhancedTimelineGenerator.calculate_effective_capacity`: the working-day
count times the member's availability. -/
def calculate_effective_capacity (holidays : List HolidayInfo) (member : TeamMember)
    (start_date end_date : ℤ) : ℚ :=
  (calculate_working_days holidays start_date end_date member : ℚ) * member.availability

end EnhancedTimelineGenerator

namespace HolidayManager

/-- `HolidayManager.is_holiday`: a date is a holiday for an (optional) member
name when some listed holiday falls on it and either `is_national` holds or
the name is truthy (a nonempty string) and appears in `affected_members`. -/
def is_holiday (holidays : List HolidayInfo) (check_date : ℤ)
    (member_name : Option String) : Bool :=
  holidays.any (fun h =>
    h.date == check_date &&
      (h.is_national ||
        (match member_name with
         | some n => !(n == "") && h.affected_members.contains n
         | none => false)))

end HolidayManager

/-- Day-indexed count of the days of `[start_date, end_date]` satisfying a
Boolean day predicate (declarative counterpart of the day loops). -/
def countDays (start_date end_date : ℤ) (p : ℤ → Bool) : ℕ :=
  ((List.range (end_date + 1 - start_date).toNat).map
    (fun (i : ℕ) => start_date + (i : ℤ))).countP p

/-- The per-day working-day rule of the original claim: the weekday is one of
the member's working days and no holiday dated that day affects the member,
where a holiday affects the member exactly when `is_national` holds or the
member's name is in `affected_members`. -/
def claimDayRule (holidays : List HolidayInfo) (member : TeamMemberInfo) (d : ℤ) : Bool :=
  member.working_days.contains (weekday d)
    && !(holidays.any (fun h =>
      h.date == d && (h.is_national || h.affected_members.contains member.name)))

/-- The sum, over the stories of a list classified with a given profile, of a
selected price component (the per-profile accumulators of
`calculate_epic_totals` in declarative form). -/
def riskSum {σ : Type} (e : PricingEngine) (get_story_points_func : σ → Option ℚ)
    (determine_risk_profile_func : σ → String) (profile : String) (sel : Prices → Option ℚ)
    (l : List σ) : ℚ :=
  ((l.filter (fun s => determine_risk_profile_func s == profile)).map
    (fun s => (sel (calculate_prices e ((get_story_points_func s).getD 0)
      (determine_risk_profile_func s))).getD 0)).sum

/-- Fold a list of DoD items into an impacts dict (the inner loop of
`get_dod_impacts`, abstracted over the starting dict). -/
def dodInsertAll (d : List (String × ℚ)) (items : List DodItem) : List (String × ℚ) :=
  items.foldl
    (fun d item =>
      dodInsert d (cleanKey (item.description.getD "")) (item.impact_percentage.getD 0))
    d

/-! ## Theorems -/

/-- C1: for every non-negative `storyPoints`, `calculate_prices` computes
`base = storyPoints * basePricePerStoryPoint` and
`baseWithQuality = base * (1 + qualityMultiplier)`; Proven yields
`fixed = baseWithQuality`, Experimental yields
`minimum/maximum = baseWithQuality * (1 ∓ variance)`, and Dependant yields
`hourlyEstimate = storyPoints * hoursPerStoryPoint * hourlyRate`, which does
not depend on the quality multiplier. -/
theorem C1_pricing_formulas (e : PricingEngine) (sp : ℚ) (h : 0 ≤ sp) :
    (calculate_prices e sp "proven").base = sp * e.base_story_point_price
    ∧ (calculate_prices e sp "proven").base_with_dod
        = sp * e.base_story_point_price * (1 + e.dod_impact_total)
    ∧ (calculate_prices e sp "proven").fixed
        = some (sp * e.base_story_point_price * (1 + e.dod_impact_total))
    ∧ (calculate_prices e sp "experimental").minimum
        = some (sp * e.base_story_point_price * (1 + e.dod_impact_total)
            * (1 - e.experimental_variance))
    ∧ (calculate_prices e sp "experimental").maximum
        = some (sp * e.base_story_point_price * (1 + e.dod_impact_total)
            * (1 + e.experimental_variance))
    ∧ (calculate_prices e sp "dependant").hourly_estimate
        = some (sp * e.hours_per_story_point * e.hourly_rate)
    ∧ ∀ q : ℚ,
        (calculate_prices { e with dod_impact_total := q } sp "dependant").hourly_estimate
          = (calculate_prices e sp "dependant").hourly_estimate := by
  refine ⟨?_, ?_, ?_, ?_, ?_, ?_, fun q => ?_⟩ <;> simp [calculate_prices]

/-- Witness for C1 at the spec's Experimental scenario:
`storyPoints = 5`, base price 100, quality multiplier 0, variance 0.3 gives
`minimum = 350` and `maximum = 650`. -/
theorem C1_pricing_formulas_witness :
    (0 : ℚ) ≤ 5
    ∧ (calculate_prices ⟨100, 3/10, 85, 0, 8⟩ 5 "experimental").minimum = some 350
    ∧ (calculate_prices ⟨100, 3/10, 85, 0, 8⟩ 5 "experimental").maximum = some 650 := by
  have h5 : (0 : ℚ) ≤ 5 := by norm_num
  have H := C1_pricing_formulas ⟨100, 3/10, 85, 0, 8⟩ 5 h5
  refine ⟨h5, ?_, ?_⟩
  · rw [H.2.2.2.1]; norm_num
  · rw [H.2.2.2.2.1]; norm_num

/-- C10: the hourly rate is never configured directly — for every
configuration it is derived as `base_hourly_rate * (1 - hourly_rate_discount)`
(95.37 with the defaults 127.16 and 0.25), so every Dependant quote equals
`storyPoints * hours_per_story_point * base_hourly_rate *
(1 - hourly_rate_discount)`. -/
theorem C10_hourly_rate_derived (cfg : SettingsConfig) (dod : DodConfig) (sp : ℚ) :
    get_hourly_rate cfg = cfg.base_hourly_rate * (1 - cfg.hourly_rate_discount)
    ∧ (mkPricingEngine cfg dod).hourly_rate
        = cfg.base_hourly_rate * (1 - cfg.hourly_rate_discount)
    ∧ get_hourly_rate defaultSettingsConfig = 9537/100
    ∧ (calculate_prices (mkPricingEngine cfg dod) sp "dependant").hourly_estimate
        = some (sp * cfg.hours_per_story_point
            * (cfg.base_hourly_rate * (1 - cfg.hourly_rate_discount))) := by
  refine ⟨rfl, rfl, by norm_num [get_hourly_rate, defaultSettingsConfig], ?_⟩
  simp [calculate_prices, mkPricingEngine, get_hourly_rate]

/-- Keyword-set membership commutes: some keyword occurs among the labels
exactly when some label occurs among the keyword set. -/
theorem any_contains_comm (ks L : List String) :
    ks.any (fun k => L.contains k) = L.any (fun l => ks.contains l) := by
  cases hA : ks.any (fun k => L.contains k) <;> cases hB : L.any (fun l => ks.contains l) <;>
    simp_all <;> tauto

/-- C7: the MoSCoW classifier checks lowercased labels first (must/should/
could/wont keyword sets, in that order), falls back to the tracker-native
priority name, and defaults to Should Have; when a label and the native
priority conflict the label wins (a `wont` label beats a `Highest`
priority), while the priority is used when no label matches. -/
theorem C7_moscow_label_first :
    (∀ story : MoscowStory, get_moscow_priority story = moscowClaimSpec story)
    ∧ get_moscow_priority ⟨["wont"], some "Highest"⟩ = Moscow.wontHave
    ∧ get_moscow_priority ⟨[], some "Highest"⟩ = Moscow.mustHave := by
  refine ⟨fun story => ?_, by decide, by decide⟩
  obtain ⟨labels, priority⟩ := story
  simp only [get_moscow_priority, moscowClaimSpec]
  rw [any_contains_comm ["must", "must-have"], any_contains_comm ["should", "should-have"],
    any_contains_comm ["could", "could-have"],
    any_contains_comm ["wont", "wont-have", "out-of-scope"]]
  simp only [List.contains_cons, List.contains_nil, Bool.or_false, Bool.or_assoc]

/-- The story fold of `calculate_epic_totals` accumulates, onto any starting
accumulator, the per-profile sums of the appropriate price components. -/
theorem epicTotals_foldl {σ : Type} (e : PricingEngine) (gsp : σ → Option ℚ)
    (rk : σ → String) (l : List σ) : ∀ acc : ℚ × ℚ × ℚ × ℚ,
    l.foldl (epicTotalsStep e gsp rk) acc
      = (acc.1 + riskSum e gsp rk "proven" Prices.fixed l,
         acc.2.1 + riskSum e gsp rk "experimental" Prices.minimum l,
         acc.2.2.1 + riskSum e gsp rk "experimental" Prices.maximum l,
         acc.2.2.2 + riskSum e gsp rk "dependant" Prices.hourly_estimate l) := by
  induction l with
  | nil => intro acc; simp [riskSum]
  | cons s t ih =>
    intro acc
    rw [List.foldl_cons, ih]
    by_cases h1 : rk s = "proven"
    · simp [epicTotalsStep, riskSum, List.filter_cons, h1, add_assoc]
    · by_cases h2 : rk s = "experimental"
      · simp [epicTotalsStep, riskSum, List.filter_cons, h1, h2, add_assoc]
      · by_cases h3 : rk s = "dependant"
        · simp [epicTotalsStep, riskSum, List.filter_cons, h1, h2, h3, add_assoc]
        · simp [epicTotalsStep, riskSum, List.filter_cons, h1, h2, h3]

/-- The nested epic/story loops fold over the concatenation of all story
lists. -/
theorem epicTotals_foldl_flatten {σ : Type} (e : PricingEngine) (gsp : σ → Option ℚ)
    (rk : σ → String) (gs : String → List σ) (epics : List Epic) :
    ∀ acc : ℚ × ℚ × ℚ × ℚ,
    epics.foldl (fun acc epic => (gs epic.key).foldl (epicTotalsStep e gsp rk) acc) acc
      = ((epics.map (fun ep => gs ep.key)).flatten).foldl (epicTotalsStep e gsp rk) acc := by
  induction epics with
  | nil => intro acc; rfl
  | cons ep t ih => intro acc; simp [List.foldl_append, ih]

/-- C5: `calculate_epic_totals` returns `provenTotal` as the sum of `fixed`
over Proven stories, `experimentalMin`/`experimentalMax` as the sums of
`minimum`/`maximum` over Experimental stories, `dependantTotal` as the sum
of `hourlyEstimate` over Dependant stories, and
`grandTotal = provenTotal + experimentalMax + dependantTotal` — always the
maximum experimental bound. -/
theorem C5_epic_totals {σ : Type} (e : PricingEngine) (epics : List Epic)
    (gs : String → List σ) (gsp : σ → Option ℚ) (rk : σ → String) :
    (calculate_epic_totals e epics gs gsp rk).proven
        = riskSum e gsp rk "proven" Prices.fixed ((epics.map (fun ep => gs ep.key)).flatten)
    ∧ (calculate_epic_totals e epics gs gsp rk).experimental_min
        = riskSum e gsp rk "experimental" Prices.minimum
            ((epics.map (fun ep => gs ep.key)).flatten)
    ∧ (calculate_epic_totals e epics gs gsp rk).experimental_max
        = riskSum e gsp rk "experimental" Prices.maximum
            ((epics.map (fun ep => gs ep.key)).flatten)
    ∧ (calculate_epic_totals e epics gs gsp rk).dependant
        = riskSum e gsp rk "dependant" Prices.hourly_estimate
            ((epics.map (fun ep => gs ep.key)).flatten)
    ∧ (calculate_epic_totals e epics gs gsp rk).grand_total
        = (calculate_epic_totals e epics gs gsp rk).proven
            + (calculate_epic_totals e epics gs gsp rk).experimental_max
            + (calculate_epic_totals e epics gs gsp rk).dependant := by
  unfold calculate_epic_totals
  rw [epicTotals_foldl_flatten, epicTotals_foldl]
  simp

/-- A key absent from the dict keys makes the membership scan of `dodInsert`
fail. -/
theorem dod_any_eq_false {d : List (String × ℚ)} {k : String}
    (h : k ∉ d.map Prod.fst) : d.any (fun p => p.1 == k) = false := by
  simp only [List.any_eq_false]
  intro p hp
  simp only [beq_iff_eq]
  intro hk
  exact h (hk ▸ List.mem_map_of_mem Prod.fst hp)

/-- Inserting items whose cleaned keys are fresh and mutually distinct only
appends: no overwrite happens. -/
theorem dodInsertAll_of_nodup (items : List DodItem) : ∀ d : List (String × ℚ),
    ((d.map Prod.fst)
      ++ items.map (fun it => cleanKey (it.description.getD ""))).Nodup →
    dodInsertAll d items
      = d ++ items.map
          (fun it => (cleanKey (it.description.getD ""), it.impact_percentage.getD 0)) := by
  induction items with
  | nil => intro d _; simp [dodInsertAll]
  | cons it t ih =>
    intro d hnd
    have hk : cleanKey (it.description.getD "") ∉ d.map Prod.fst := by
      intro hmem
      rcases (List.nodup_append.mp (by simpa using hnd)) with ⟨-, -, hdisj⟩
      exact hdisj hmem (by simp)
    have hins : dodInsert d (cleanKey (it.description.getD ""))
        (it.impact_percentage.getD 0)
        = d ++ [(cleanKey (it.description.getD ""), it.impact_percentage.getD 0)] := by
      unfold dodInsert
      rw [dod_any_eq_false hk]
      simp
    have hstep : dodInsertAll d (it :: t)
        = dodInsertAll (d ++ [(cleanKey (it.description.getD ""),
            it.impact_percentage.getD 0)]) t := by
      simp [dodInsertAll, hins]
    rw [hstep, ih]
    · simp
    · have : ((d ++ [(cleanKey (it.description.getD ""), it.impact_percentage.getD 0)]).map
          Prod.fst ++ t.map (fun it => cleanKey (it.description.getD "")))
          = d.map Prod.fst ++ (it :: t).map (fun it => cleanKey (it.description.getD "")) := by
        simp
      rw [this]
      exact hnd

/-- The category/item double fold of `get_dod_impacts` inserts exactly the
flattened item list. -/
theorem get_dod_impacts_eq_insertAll (cfg : DodConfig) :
    get_dod_impacts cfg = dodInsertAll [] (dodAllItems cfg) := by
  have main : ∀ (cats : List DodCategory) (d : List (String × ℚ)),
      cats.foldl (fun d category => dodInsertAll d category.items) d
        = dodInsertAll d ((cats.map DodCategory.items).flatten) := by
    intro cats
    induction cats with
    | nil => intro d; simp [dodInsertAll]
    | cons c t ih =>
      intro d
      simp only [List.foldl_cons, List.map_cons, List.flatten_cons]
      rw [ih]
      simp [dodInsertAll, List.foldl_append]
  exact main cfg.categories []

/-- Counterexample to C8 as stated: two quality requirements with the same
description (`"a"`, impacts 0.1 and 0.2) collapse to one dict key, so the
total is 0.2, not the plain arithmetic sum 0.3. -/
theorem C8_counterexample :
    calculate_dod_impact_total
        ⟨[⟨some "c", [⟨some "a", some (1/10)⟩, ⟨some "a", some (2/10)⟩]⟩]⟩
      ≠ ((dodAllItems
            ⟨[⟨some "c", [⟨some "a", some (1/10)⟩, ⟨some "a", some (2/10)⟩]⟩]⟩).map
          (fun it => it.impact_percentage.getD 0)).sum := by
  norm_num [calculate_dod_impact_total, get_dod_impacts, dodInsert, dodAllItems]

/-- C8 (amended): the quality-impact total is the sum of the values of the
impacts dict keyed by cleaned description (a later requirement with the same
cleaned description overwrites an earlier one); it is 0.0 for the empty
list, carries no normalization or clamping, and equals the plain sum of
every requirement's `impact_percentage` whenever the cleaned descriptions
are pairwise distinct. -/
theorem C8_amended_total (cfg : DodConfig) :
    calculate_dod_impact_total cfg = ((get_dod_impacts cfg).map Prod.snd).sum
    ∧ (dodAllItems cfg = [] → calculate_dod_impact_total cfg = 0)
    ∧ (((dodAllItems cfg).map (fun it => cleanKey (it.description.getD ""))).Nodup →
        calculate_dod_impact_total cfg
          = ((dodAllItems cfg).map (fun it => it.impact_percentage.getD 0)).sum) := by
  refine ⟨?_, ?_, ?_⟩
  · unfold calculate_dod_impact_total
    by_cases h : (get_dod_impacts cfg).isEmpty
    · rw [List.isEmpty_iff] at h
      simp [h]
    · simp [h]
  · intro h
    unfold calculate_dod_impact_total
    rw [get_dod_impacts_eq_insertAll, h]
    simp [dodInsertAll]
  · intro hnd
    have hd : get_dod_impacts cfg
        = (dodAllItems cfg).map
            (fun it => (cleanKey (it.description.getD ""), it.impact_percentage.getD 0)) := by
      rw [get_dod_impacts_eq_insertAll, dodInsertAll_of_nodup _ [] (by simpa using hnd)]
      simp
    unfold calculate_dod_impact_total
    rw [hd]
    rcases hcase : dodAllItems cfg with _ | ⟨it, t⟩
    · simp
    · simp only [List.map_cons, List.map_map, List.sum_cons]
      rfl

/-- Witness for the amended C8 on a configuration with distinct
descriptions: the total is the plain sum. -/
theorem C8_amended_total_witness :
    calculate_dod_impact_total
        ⟨[⟨some "c", [⟨some "a", some (1/10)⟩, ⟨some "b", some (2/10)⟩]⟩]⟩
      = ((dodAllItems
            ⟨[⟨some "c", [⟨some "a", some (1/10)⟩, ⟨some "b", some (2/10)⟩]⟩]⟩).map
          (fun it => it.impact_percentage.getD 0)).sum :=
  (C8_amended_total _).2.2 (by decide)

/-- The day loop of the base generator counts the offsets whose day passes
the member-specific working-day test. -/
theorem tgWorkingDaysLoop_eq_countP (hs : List HolidayInfo) (m : TeamMemberInfo) :
    ∀ (n : ℕ) (d : ℤ),
    tgWorkingDaysLoop hs m n d
      = (List.range n).countP (fun (i : ℕ) =>
          m.working_days.contains (weekday (d + (i : ℤ)))
            && !(tgIsHoliday hs m (d + (i : ℤ)))) := by
  intro n
  induction n with
  | zero => intro d; simp [tgWorkingDaysLoop]
  | succ k ih =>
    intro d
    rw [tgWorkingDaysLoop, ih (d + 1), List.range_succ_eq_map, List.countP_cons,
      List.countP_map]
    have hfun : ((fun (i : ℕ) =>
          m.working_days.contains (weekday (d + (i : ℤ)))
            && !(tgIsHoliday hs m (d + (i : ℤ)))) ∘ Nat.succ)
        = (fun (i : ℕ) =>
          m.working_days.contains (weekday ((d + 1) + (i : ℤ)))
            && !(tgIsHoliday hs m ((d + 1) + (i : ℤ)))) := by
      funext i
      simp only [Function.comp_apply]
      congr 2 <;> (push_cast; ring_nf)
    rw [hfun]
    simp only [Nat.cast_zero, add_zero]
    exact Nat.add_comm _ _

/-- The day loop of the enhanced generator counts the offsets whose day
passes its Monday-to-Friday-and-no-holiday test. -/
theorem enhWorkingDaysLoop_eq_countP (hs : List HolidayInfo) (m : TeamMember) :
    ∀ (n : ℕ) (d : ℤ),
    EnhancedTimelineGenerator.enhWorkingDaysLoop hs m n d
      = (List.range n).countP (fun (i : ℕ) =>
          EnhancedTimelineGenerator.enhDayWorks hs m (d + (i : ℤ))) := by
  intro n
  induction n with
  | zero => intro d; simp [EnhancedTimelineGenerator.enhWorkingDaysLoop]
  | succ k ih =>
    intro d
    rw [EnhancedTimelineGenerator.enhWorkingDaysLoop, ih (d + 1), List.range_succ_eq_map,
      List.countP_cons, List.countP_map]
    have hfun : ((fun (i : ℕ) =>
          EnhancedTimelineGenerator.enhDayWorks hs m (d + (i : ℤ))) ∘ Nat.succ)
        = (fun (i : ℕ) =>
          EnhancedTimelineGenerator.enhDayWorks hs m ((d + 1) + (i : ℤ))) := by
      funext i
      simp only [Function.comp_apply]
      congr 1
      push_cast
      ring
    rw [hfun]
    simp only [Nat.cast_zero, add_zero]
    exact Nat.add_comm _ _

/-- `countDays` in composed-predicate form. -/
theorem countDays_eq_countP_range (start_date end_date : ℤ) (p : ℤ → Bool) :
    countDays start_date end_date p
      = (List.range (end_date + 1 - start_date).toNat).countP
          (fun (i : ℕ) => p (start_date + (i : ℤ))) := by
  unfold countDays
  rw [List.countP_map]
  rfl

/-- Counterexample to C2 as stated: a national holiday on a Monday whose
`affected_members` names only `bob` affects `alice` under the claim's rule
(`isNational` is true), yet the base generator still counts the day for
`alice`, because it tests emptiness of `affected_members` instead of
`is_national`. -/
theorem C2_counterexample :
    TimelineGenerator.calculate_working_days [⟨0, "X", true, ["bob"]⟩] 0 0
        ⟨"alice", 1, 10, [0, 1, 2, 3, 4], []⟩
      ≠ countDays 0 0
          (claimDayRule [⟨0, "X", true, ["bob"]⟩] ⟨"alice", 1, 10, [0, 1, 2, 3, 4], []⟩) := by
  decide

/-- C2 (amended): `workingDays` counts the calendar days of
`[startDate, endDate]` passing a per-day rule, but the holiday rule differs
between the two generators. The base generator counts a day when its
weekday is in the member's working days, no listed holiday on it has an
empty `affected_members` or one containing the member's name, and it is not
one of the member's custom holidays. The enhanced generator counts a day
when its weekday is Monday through Friday and no holiday on it satisfies
the claim's rule — `is_national` or membership in `affected_members` — the
same rule `HolidayManager.is_holiday` implements for nonempty member
names. -/
theorem C2_working_days_rules :
    (∀ (hs : List HolidayInfo) (m : TeamMemberInfo) (s e : ℤ),
      TimelineGenerator.calculate_working_days hs s e m
        = countDays s e (fun d =>
            m.working_days.contains (weekday d) && !(tgIsHoliday hs m d)))
    ∧ (∀ (hs : List HolidayInfo) (m : TeamMember) (s e : ℤ),
      EnhancedTimelineGenerator.calculate_working_days hs s e m
        = countDays s e (fun d =>
            decide (weekday d < 5)
              && !(hs.any (fun h =>
                h.date == d && (h.is_national || h.affected_members.contains m.name)))))
    ∧ (∀ (hs : List HolidayInfo) (d : ℤ) (n : String), ¬ n = "" →
      HolidayManager.is_holiday hs d (some n)
        = hs.any (fun h =>
            h.date == d && (h.is_national || h.affected_members.contains n))) := by
  refine ⟨?_, ?_, ?_⟩
  · intro hs m s e
    rw [TimelineGenerator.calculate_working_days, tgWorkingDaysLoop_eq_countP,
      countDays_eq_countP_range]
  · intro hs m s e
    rw [EnhancedTimelineGenerator.calculate_working_days, enhWorkingDaysLoop_eq_countP,
      countDays_eq_countP_range]
    rfl
  · intro hs d n hn
    unfold HolidayManager.is_holiday
    congr 1
    funext h
    have h0 : (n == "") = false := beq_eq_false_iff_ne.mpr hn
    simp [h0]

/-- Witness for the amended C2: a personal holiday listing `alice` makes
`is_holiday` agree with the claim's rule at a concrete date. -/
theorem C2_working_days_rules_witness :
    HolidayManager.is_holiday [⟨0, "trip", false, ["alice"]⟩] 0 (some "alice")
      = [(⟨0, "trip", false, ["alice"]⟩ : HolidayInfo)].any (fun h =>
          h.date == 0 && (h.is_national || h.affected_members.contains "alice")) :=
  C2_working_days_rules.2.2 [⟨0, "trip", false, ["alice"]⟩] 0 "alice" (by decide)

/-- Counterexample to C6 as stated: for a member with velocity 20 and
availability 1 over a one-Monday range with no holidays, the enhanced
generator returns `workingDays × availability = 1`, not the claimed
`storyPointsPerSprint × (workingDays / 10) × availability = 2`. -/
theorem C6_counterexample :
    EnhancedTimelineGenerator.calculate_effective_capacity [] ⟨"carol", 1, 20⟩ 0 0
      ≠ max 0 ((20 : ℚ)
          * ((EnhancedTimelineGenerator.calculate_working_days [] 0 0 ⟨"carol", 1, 20⟩ : ℚ)
            / 10) * 1) := by
  have hw : EnhancedTimelineGenerator.calculate_working_days [] 0 0 ⟨"carol", 1, 20⟩ = 1 := by
    decide
  unfold EnhancedTimelineGenerator.calculate_effective_capacity
  rw [hw]
  norm_num

/-- C6 (amended): the base generator's `effectiveCapacity` equals
`storyPointsPerSprint × (workingDays / 10) × availability` clamped below at
0, is never negative, and is 0 whenever every day of the range is a holiday
affecting the member (under the base generator's holiday rule); the
enhanced generator instead returns `workingDays × availability`. -/
theorem C6_effective_capacity :
    (∀ (hs : List HolidayInfo) (m : TeamMemberInfo) (s e : ℤ),
      TimelineGenerator.calculate_effective_capacity hs m s e
        = max 0 (m.story_points_per_sprint
            * ((TimelineGenerator.calculate_working_days hs s e m : ℚ) / 10) * m.fte))
    ∧ (∀ (hs : List HolidayInfo) (m : TeamMemberInfo) (s e : ℤ),
      0 ≤ TimelineGenerator.calculate_effective_capacity hs m s e)
    ∧ (∀ (hs : List HolidayInfo) (m : TeamMemberInfo) (s e : ℤ),
      (∀ d : ℤ, s ≤ d → d ≤ e → tgIsHoliday hs m d = true) →
      TimelineGenerator.calculate_effective_capacity hs m s e = 0)
    ∧ (∀ (hs : List HolidayInfo) (m : TeamMember) (s e : ℤ),
      EnhancedTimelineGenerator.calculate_effective_capacity hs m s e
        = (EnhancedTimelineGenerator.calculate_working_days hs s e m : ℚ)
            * m.availability) := by
  have hformula : ∀ (hs : List HolidayInfo) (m : TeamMemberInfo) (s e : ℤ),
      TimelineGenerator.calculate_effective_capacity hs m s e
        = max 0 (m.story_points_per_sprint
            * ((TimelineGenerator.calculate_working_days hs s e m : ℚ) / 10) * m.fte) := by
    intro hs m s e
    unfold TimelineGenerator.calculate_effective_capacity
    by_cases hpos : 0 < e - s + 1
    · simp [hpos]
    · have hlen : (e + 1 - s).toNat = 0 := by omega
      have hw : TimelineGenerator.calculate_working_days hs s e m = 0 := by
        unfold TimelineGenerator.calculate_working_days
        rw [hlen]
        rfl
      rw [hw]
      simp [hpos]
  refine ⟨hformula, ?_, ?_, ?_⟩
  · intro hs m s e
    rw [hformula]
    exact le_max_left 0 _
  · intro hs m s e hall
    have hw : TimelineGenerator.calculate_working_days hs s e m = 0 := by
      rw [TimelineGenerator.calculate_working_days, tgWorkingDaysLoop_eq_countP]
      apply List.countP_eq_zero.mpr
      intro i hi
      have hiz : (i : ℤ) < e + 1 - s := by
        have := List.mem_range.mp hi
        omega
      have hd1 : s ≤ s + (i : ℤ) := by omega
      have hd2 : s + (i : ℤ) ≤ e := by omega
      rw [hall (s + (i : ℤ)) hd1 hd2]
      simp
    rw [hformula, hw]
    norm_num
  · intro hs m s e
    rfl

/-- Witness for the amended C6: with a single holiday covering the whole
one-day range and affecting everyone, the capacity is 0. -/
theorem C6_effective_capacity_witness :
    TimelineGenerator.calculate_effective_capacity [⟨0, "off", false, []⟩]
        ⟨"alice", 1, 10, [0, 1, 2, 3, 4], []⟩ 0 0 = 0 :=
  C6_effective_capacity.2.2.1 [⟨0, "off", false, []⟩] ⟨"alice", 1, 10, [0, 1, 2, 3, 4], []⟩ 0 0
    (fun d h1 h2 => by
      have : d = 0 := le_antisymm h2 h1
      rw [this]
      decide)

/-- The sprint loop emits at most `fuel` sprints. -/
theorem sprintLoop_length_le (ms : List TeamMemberInfo) (hs : List HolidayInfo) (len : ℤ) :
    ∀ (fuel n : ℕ) (cur : ℤ) (rem : ℚ),
    ((sprintLoop ms hs len fuel n cur rem).1).length ≤ fuel := by
  intro fuel
  induction fuel with
  | zero => intro n cur rem; simp [sprintLoop]
  | succ k ih =>
    intro n cur rem
    rw [sprintLoop]
    by_cases h1 : rem ≤ 0
    · simp [h1]
    · simp only [h1, if_false]
      by_cases h2 : 50 < n + 1
      · simp [h2]
      · simp only [h2, if_false]
        have := ih (n + 1) (cur + len - 1 + 1) (rem - min rem (sprintTeamCapacity ms hs cur (cur + len - 1)))
        simpa using Nat.succ_le_succ this

/-- Each emitted sprint's dates and number are determined by its index: the
cursor advances by exactly the sprint length every iteration, regardless of
the allocated story points. -/
theorem sprintLoop_get? (ms : List TeamMemberInfo) (hs : List HolidayInfo) (len : ℤ) :
    ∀ (fuel n : ℕ) (cur : ℤ) (rem : ℚ) (i : ℕ) (sp : Sprint),
    ((sprintLoop ms hs len fuel n cur rem).1).get? i = some sp →
    sp.start_date = cur + (i : ℤ) * len
    ∧ sp.end_date = cur + (i : ℤ) * len + len - 1
    ∧ sp.number = n + i := by
  intro fuel
  induction fuel with
  | zero => intro n cur rem i sp h; simp [sprintLoop] at h
  | succ k ih =>
    intro n cur rem i sp h
    simp only [sprintLoop] at h
    by_cases h1 : rem ≤ 0
    · simp [h1] at h
    · simp only [h1, if_false] at h
      by_cases h2 : 50 < n + 1
      · simp only [h2, if_true] at h
        rcases i with _ | j
        · simp only [List.get?] at h
          cases h
          refine ⟨by simp, by push_cast; ring_nf, by simp⟩
        · simp [List.get?] at h
      · simp only [h2, if_false] at h
        rcases i with _ | j
        · simp only [List.get?] at h
          cases h
          refine ⟨by simp, by push_cast; ring_nf, by simp⟩
        · simp only [List.get?] at h
          have hrec := ih (n + 1) (cur + len - 1 + 1)
            (rem - min rem (sprintTeamCapacity ms hs cur (cur + len - 1))) j sp h
          refine ⟨?_, ?_, ?_⟩
          · rw [hrec.1]; push_cast; ring
          · rw [hrec.2.1]; push_cast; ring
          · rw [hrec.2.2]; omega

/-- Allocations are conserved: the story points emitted by the loop equal the
backlog it consumed, and the remaining backlog never goes negative. -/
theorem sprintLoop_sum (ms : List TeamMemberInfo) (hs : List HolidayInfo) (len : ℤ) :
    ∀ (fuel n : ℕ) (cur : ℤ) (rem : ℚ), 0 ≤ rem →
    ((((sprintLoop ms hs len fuel n cur rem).1).map Sprint.story_points).sum
        = rem - (sprintLoop ms hs len fuel n cur rem).2)
    ∧ 0 ≤ (sprintLoop ms hs len fuel n cur rem).2 := by
  intro fuel
  induction fuel with
  | zero => intro n cur rem h0; constructor <;> simp [sprintLoop, h0]
  | succ k ih =>
    intro n cur rem h0
    simp only [sprintLoop]
    by_cases h1 : rem ≤ 0
    · constructor <;> simp [h1, h0]
    · simp only [h1, if_false]
      have hrem2 : 0 ≤ rem - min rem (sprintTeamCapacity ms hs cur (cur + len - 1)) := by
        have := min_le_left rem (sprintTeamCapacity ms hs cur (cur + len - 1))
        linarith
      by_cases h2 : 50 < n + 1
      · constructor <;> simp [h2, hrem2]
      · simp only [h2, if_false]
        have hrec := ih (n + 1) (cur + len - 1 + 1)
          (rem - min rem (sprintTeamCapacity ms hs cur (cur + len - 1))) hrem2
        constructor
        · simp only [List.map_cons, List.sum_cons]
          rw [hrec.1]
          ring
        · exact hrec.2

/-- C3: when the holiday-aware scheduler finishes with no remaining backlog
(the 50-sprint cap was not the reason it stopped), the emitted sprints'
story points sum exactly to the requested total, and the sprint numbers are
the contiguous sequence 1, 2, …, n. -/
theorem C3_schedule_conservation (members : List TeamMemberInfo) (hs : List HolidayInfo)
    (start_date : ℤ) (total : ℚ) (weeks : ℕ) (h0 : 0 ≤ total)
    (hfin : (generate_sprint_timeline members hs start_date total weeks).2 = 0) :
    ((((generate_sprint_timeline members hs start_date total weeks).1).map
        Sprint.story_points).sum = total)
    ∧ (∀ (i : ℕ) (sp : Sprint),
        ((generate_sprint_timeline members hs start_date total weeks).1).get? i = some sp →
        sp.number = i + 1) := by
  unfold generate_sprint_timeline at hfin ⊢
  by_cases hm : members.isEmpty
  · rw [if_pos hm] at hfin ⊢
    constructor
    · simpa using hfin.symm
    · intro i sp h
      simp at h
  · rw [if_neg hm] at hfin ⊢
    constructor
    · have hsum := (sprintLoop_sum members hs ((weeks : ℤ) * 7) 50 1 start_date total h0).1
      rw [hsum, hfin]
      ring
    · intro i sp h
      have := (sprintLoop_get? members hs ((weeks : ℤ) * 7) 50 1 start_date total i sp h).2.2
      omega

/-- C9: the holiday-aware scheduler always terminates with at most 50
sprints; sprint `i` (0-based) starts exactly `i × sprintLengthWeeks × 7`
days after the requested start and spans `sprintLengthWeeks × 7` calendar
days, even when a sprint's capacity is 0, so two distinct sprints never
share a date range. (Termination is structural: the loop recurses on the
iteration budget enforced by the source's 50-sprint safety break.) -/
theorem C9_termination_and_cursor (members : List TeamMemberInfo) (hs : List HolidayInfo)
    (start_date : ℤ) (total : ℚ) (weeks : ℕ) (h0 : 0 ≤ total) (hm : members ≠ [])
    (hw : 1 ≤ weeks) :
    ((generate_sprint_timeline members hs start_date total weeks).1).length ≤ 50
    ∧ (∀ (i : ℕ) (sp : Sprint),
        ((generate_sprint_timeline members hs start_date total weeks).1).get? i = some sp →
        sp.start_date = start_date + (i : ℤ) * ((weeks : ℤ) * 7)
        ∧ sp.end_date = sp.start_date + (weeks : ℤ) * 7 - 1)
    ∧ (∀ (i j : ℕ) (spi spj : Sprint),
        ((generate_sprint_timeline members hs start_date total weeks).1).get? i = some spi →
        ((generate_sprint_timeline members hs start_date total weeks).1).get? j = some spj →
        i ≠ j → spi.start_date ≠ spj.start_date) := by
  have hm' : ¬ members.isEmpty := by
    cases members with
    | nil => exact absurd rfl hm
    | cons a t => simp
  unfold generate_sprint_timeline
  rw [if_neg hm']
  refine ⟨sprintLoop_length_le members hs ((weeks : ℤ) * 7) 50 1 start_date total, ?_, ?_⟩
  · intro i sp h
    have hsp := sprintLoop_get? members hs ((weeks : ℤ) * 7) 50 1 start_date total i sp h
    exact ⟨hsp.1, by rw [hsp.2.1, hsp.1]⟩
  · intro i j spi spj hi hj hij
    have hspi := (sprintLoop_get? members hs ((weeks : ℤ) * 7) 50 1 start_date total i spi hi).1
    have hspj := (sprintLoop_get? members hs ((weeks : ℤ) * 7) 50 1 start_date total j spj hj).1
    rw [hspi, hspj]
    intro heq
    have hcancel : (i : ℤ) * ((weeks : ℤ) * 7) = (j : ℤ) * ((weeks : ℤ) * 7) := by linarith
    have hL : ((weeks : ℤ) * 7) ≠ 0 := by
      have h1 : (1 : ℤ) ≤ (weeks : ℤ) := by exact_mod_cast hw
      omega
    have : (i : ℤ) = (j : ℤ) := mul_right_cancel₀ hL hcancel
    exact hij (by exact_mod_cast this)

/-- A non-positive backlog stops the sprint loop immediately. -/
theorem sprintLoop_of_nonpos (ms : List TeamMemberInfo) (hs : List HolidayInfo) (len : ℤ)
    (fuel n : ℕ) (cur : ℤ) (rem : ℚ) (h : rem ≤ 0) :
    sprintLoop ms hs len fuel n cur rem = ([], rem) := by
  cases fuel with
  | zero => rfl
  | succ k => rw [sprintLoop, if_pos h]

/-- Witness for C3: one member with velocity 10 and FTE 1, no holidays,
one-week sprints starting on a Monday, and a backlog of 5 story points: the
first sprint's capacity is 10 × (5 working days / 10) × 1 = 5, so the whole
backlog is scheduled and the emitted story points sum to 5. -/
theorem C3_schedule_conservation_witness :
    (0 : ℚ) ≤ 5
    ∧ ((((generate_sprint_timeline [⟨"alice", 1, 10, [0, 1, 2, 3, 4], []⟩] [] 0 5 1).1).map
        Sprint.story_points).sum = 5) := by
  have h0 : (0 : ℚ) ≤ 5 := by norm_num
  have hwd : TimelineGenerator.calculate_working_days [] 0 6
      ⟨"alice", 1, 10, [0, 1, 2, 3, 4], []⟩ = 5 := by decide
  have hcap : sprintTeamCapacity [⟨"alice", 1, 10, [0, 1, 2, 3, 4], []⟩] [] 0 6 = 5 := by
    unfold sprintTeamCapacity
    simp only [List.map_cons, List.map_nil, List.sum_cons, List.sum_nil]
    unfold TimelineGenerator.calculate_effective_capacity
    rw [hwd]
    norm_num
  have hfin : (generate_sprint_timeline [⟨"alice", 1, 10, [0, 1, 2, 3, 4], []⟩] [] 0 5 1).2
      = 0 := by
    unfold generate_sprint_timeline
    rw [if_neg (by simp)]
    rw [show (50 : ℕ) = 49 + 1 from rfl, sprintLoop]
    rw [if_neg (by norm_num : ¬ (5 : ℚ) ≤ 0), if_neg (by norm_num : ¬ 50 < 1 + 1)]
    norm_num [hcap]
    rw [sprintLoop_of_nonpos _ _ _ _ _ _ _ (le_refl (0 : ℚ))]
  exact ⟨h0, (C3_schedule_conservation [⟨"alice", 1, 10, [0, 1, 2, 3, 4], []⟩] [] 0 5 1 h0
    hfin).1⟩

/-- Witness for C9 at the same concrete team: the hypotheses hold and the
schedule length obeys the 50-sprint bound. -/
theorem C9_termination_and_cursor_witness :
    ((generate_sprint_timeline [⟨"alice", 1, 10, [0, 1, 2, 3, 4], []⟩] [] 0 5 1).1).length
      ≤ 50 :=
  (C9_termination_and_cursor [⟨"alice", 1, 10, [0, 1, 2, 3, 4], []⟩] [] 0 5 1 (by norm_num)
    (by simp) (le_refl 1)).1

/-- The score of a single work type is one of 0, 1, 2, 3. -/
theorem score_bounds (wt : String) : 0 ≤ score wt ∧ score wt ≤ 3 := by
  unfold score
  split_ifs <;> omega

/-- The best score over a list of work types is one of 0, 1, 2, 3. -/
theorem maxScore_bounds (wts : List String) : 0 ≤ maxScore wts ∧ maxScore wts ≤ 3 := by
  induction wts with
  | nil => simp [maxScore]
  | cons wt rest ih =>
    have hs := score_bounds wt
    simp only [maxScore]
    omega

/-- One pass of the inner priority loop over the default `risk_priority`
table turns a loop state for best priority `k` into the state for
`max k (score wt)`. -/
theorem riskFold_inner (wt : String) (k : ℤ) (hk0 : 0 ≤ k) (hk3 : k ≤ 3) :
    defaultRiskConfig.risk_priority.foldl (riskMatchStep wt) (encodeRisk k)
      = encodeRisk (max k (score wt)) := by
  have e : defaultRiskConfig.risk_priority
      = [("proven", 1), ("experimental", 2), ("dependant", 3), ("dependent", 3)] := rfl
  rw [e]
  simp only [List.foldl_cons, List.foldl_nil]
  unfold riskMatchStep
  have htm : ∀ rt : String, (pyIn rt wt || pyIn wt rt) = tagMatches wt rt := fun rt => rfl
  simp only [htm]
  unfold score depMatch expMatch provMatch encodeRisk
  interval_cases k <;>
    cases hp : tagMatches wt "proven" <;>
    cases he : tagMatches wt "experimental" <;>
    cases hda : tagMatches wt "dependant" <;>
    cases hde : tagMatches wt "dependent" <;>
      simp [hp, he, hda, hde, max_def]

/-- The full type-of-work matching loop computes the best score over all
work types, starting from any reachable state. -/
theorem riskFold_outer (wts : List String) : ∀ k : ℤ, 0 ≤ k → k ≤ 3 →
    wts.foldl (fun acc work_type =>
        defaultRiskConfig.risk_priority.foldl (riskMatchStep work_type) acc)
      (encodeRisk k)
      = encodeRisk (max k (maxScore wts)) := by
  induction wts with
  | nil =>
    intro k hk0 hk3
    simp only [List.foldl_nil, maxScore]
    congr 1
    omega
  | cons wt rest ih =>
    intro k hk0 hk3
    have hs := score_bounds wt
    rw [List.foldl_cons, riskFold_inner wt k hk0 hk3,
      ih (max k (score wt)) (by omega) (by omega)]
    simp only [maxScore]
    congr 1
    omega

/-- `selectRisk` on the default table returns the encoded best score. -/
theorem selectRisk_default (wts : List String) :
    selectRisk defaultRiskConfig.risk_priority wts = encodeRisk (maxScore wts) := by
  have h0 : ((0 : ℤ), "experimental") = encodeRisk 0 := rfl
  unfold selectRisk
  rw [h0, riskFold_outer wts 0 le_rfl (by omega)]
  congr 1
  have := (maxScore_bounds wts).1
  omega

/-- The best score is 3 exactly on a dependant/dependent match, else 2 on an
experimental match, else 1 on a proven match, else 0. -/
theorem maxScore_spec (wts : List String) :
    maxScore wts = if wts.any depMatch then 3 else if wts.any expMatch then 2
      else if wts.any provMatch then 1 else 0 := by
  induction wts with
  | nil => simp [maxScore]
  | cons wt rest ih =>
    obtain ⟨hb0, hb3⟩ := maxScore_bounds rest
    simp only [maxScore, List.any_cons, ih]
    cases hd : depMatch wt
    · cases he2 : expMatch wt
      · rcases Bool.dichotomy (provMatch wt) with hp3 | hp3
        · have hs : score wt = 0 := by simp [score, hd, he2, hp3]
          rw [hs]
          simp only [hp3, Bool.false_or]
          split_ifs <;> omega
        · have hs : score wt = 1 := by simp [score, hd, he2, hp3]
          rw [hs]
          simp only [hp3, Bool.false_or, Bool.true_or]
          split_ifs <;> omega
      · have hs : score wt = 2 := by simp [score, hd, he2]
        rw [hs]
        simp only [Bool.false_or, Bool.true_or]
        split_ifs <;> omega
    · have hs : score wt = 3 := by simp [score, hd]
      rw [hs]
      simp only [Bool.true_or]
      split_ifs <;> omega

/-- The label/story-point fallback of the risk cascade coincides, under the
default thresholds, with the claim's (amended) wording: thresholds 3 and 8
apply only to a present and nonzero story-point value. -/
theorem risk_fallback_eq (story : RiskStory) :
    (if ["proven", "low-risk", "fixed"].any
          (fun l => (story.labels.map pyLower).contains l) then "proven"
     else if ["experimental", "moderate-risk", "research"].any
          (fun l => (story.labels.map pyLower).contains l) then "experimental"
     else if ["dependant", "dependent", "high-risk", "external"].any
          (fun l => (story.labels.map pyLower).contains l) then "dependant"
     else
       if getStoryPointsFromStory story != 0 then
         if getStoryPointsFromStory story ≤ defaultRiskConfig.proven_threshold_story_points
         then "proven"
         else if getStoryPointsFromStory story
             ≤ defaultRiskConfig.experimental_threshold_story_points then "experimental"
         else "dependant"
       else "experimental")
    = (if ["proven", "low-risk", "fixed"].any
          (fun l => (story.labels.map pyLower).contains l) then "proven"
       else if ["experimental", "moderate-risk", "research"].any
          (fun l => (story.labels.map pyLower).contains l) then "experimental"
       else if ["dependant", "dependent", "high-risk", "external"].any
          (fun l => (story.labels.map pyLower).contains l) then "dependant"
       else
         match story.story_points_field with
         | some v =>
           if v ≠ 0 then
             if v ≤ 3 then "proven" else if v ≤ 8 then "experimental" else "dependant"
           else "experimental"
         | none => "experimental") := by
  by_cases h1 : (["proven", "low-risk", "fixed"].any
      (fun l => (story.labels.map pyLower).contains l)) = true
  · rw [if_pos h1, if_pos h1]
  · rw [if_neg h1, if_neg h1]
    by_cases h2 : (["experimental", "moderate-risk", "research"].any
        (fun l => (story.labels.map pyLower).contains l)) = true
    · rw [if_pos h2, if_pos h2]
    · rw [if_neg h2, if_neg h2]
      by_cases h3 : (["dependant", "dependent", "high-risk", "external"].any
          (fun l => (story.labels.map pyLower).contains l)) = true
      · rw [if_pos h3, if_pos h3]
      · rw [if_neg h3, if_neg h3]
        cases hsp : story.story_points_field with
        | none => simp [getStoryPointsFromStory, hsp]
        | some v =>
          by_cases hv : v = 0
          · simp [getStoryPointsFromStory, hsp, hv]
          · simp [getStoryPointsFromStory, hsp, hv, defaultRiskConfig]

/-- C4 (amended): under the default configuration the risk classifier is the
claimed four-step cascade with first-match-wins — type-of-work tags decided
by the highest-priority substring match (`dependent` normalized to
`dependant`), then the legacy label sets in order, then the story-point
thresholds 3 and 8 for a present and **nonzero** story-point value, then the
Experimental default — and it is a total function, raising no exception. A
present story-point value of 0 is falsy in the source and falls through to
the default. -/
theorem C4_risk_cascade (story : RiskStory) :
    determine_risk_profile defaultRiskConfig story = riskClaimSpec story := by
  unfold determine_risk_profile riskClaimSpec
  cases htow : story.type_of_work with
  | none =>
    dsimp only
    exact risk_fallback_eq story
  | some tow =>
    dsimp only
    by_cases ht : tow.isTruthy = true
    · rw [if_pos ht, if_pos ht, selectRisk_default, maxScore_spec]
      by_cases hdep : (tow.workTypes.any depMatch) = true
      · simp [hdep, encodeRisk]
      · have hdep' : (tow.workTypes.any depMatch) = false := by simpa using hdep
        by_cases hexp : (tow.workTypes.any expMatch) = true
        · simp [hdep', hexp, encodeRisk]
        · have hexp' : (tow.workTypes.any expMatch) = false := by simpa using hexp
          by_cases hprv : (tow.workTypes.any provMatch) = true
          · simp [hdep', hexp', hprv, encodeRisk]
          · have hprv' : (tow.workTypes.any provMatch) = false := by simpa using hprv
            simp only [hdep', hexp', hprv', if_false, Bool.false_eq_true]
            dsimp [encodeRisk]
            exact risk_fallback_eq story
    · rw [if_neg ht, if_neg ht]
      dsimp only
      exact risk_fallback_eq story

/-- Counterexample to C4 as stated: a story with no type-of-work, no labels,
and a **present story-point value of 0** is classified `experimental` (the
value 0 is falsy in Python and skips the threshold step), not `proven` as
the claim's "storyPoints ≤ 3, including the value 0" would require. -/
theorem C4_counterexample :
    determine_risk_profile defaultRiskConfig ⟨none, [], some 0⟩ = "experimental"
    ∧ determine_risk_profile defaultRiskConfig ⟨none, [], some 0⟩ ≠ "proven" := by
  constructor <;> decide
